import Mathlib

/-!
Verification development for a small C++ PRNG library (martinus/cpp_rng).

The library provides two generators, `splitmix64` and `xoshiro256starstar`, and a
mixin `Extras` with numeric conversions (`real01`, `real_between`, `bounded`) that
consume one raw 64-bit draw per call.  Machine `uint64_t` arithmetic is embedded as
`Nat` with explicit `% 2 ^ 64` wherever C++ wraps; each generator step is a pure
function from the state to an output/next-state pair, and the mixin operations are
parameterised over an arbitrary step function, mirroring the CRTP structure of the
source.  Floating-point values produced by `real01` are modelled exactly in `ℚ`:
the IEEE-754 operations it performs (decoding a bit pattern with exponent field
0x3FF, subtracting 1.0 from a value in [1,2)) are exact at the points reached, so
the rational semantics of `real01` agrees with the double semantics bit for bit.
The double multiplication in `real_between`, in contrast, rounds and can overflow
(for example `max_val - min_val` is +inf at (-DBL_MAX, DBL_MAX)); its definition
here denotes only the exact rational value of the expression the source computes,
and no theorem below asserts a range bound for its product.
-/

namespace CppRng

/-- Embedding of `detail::rotl<uint64_t>`: `(x << k) | (x >> (64 - k))` with the
left shift wrapping modulo 2^64 as `uint64_t` does. -/
def rotl64 (x k : Nat) : Nat :=
  ((x <<< k) % 2 ^ 64) ||| (x >>> (64 - k))

/-- Embedding of one call of `splitmix64::operator()()`: the accumulator gains the
odd constant 0x9E3779B97F4A7C15 (wrapping), the new accumulator value is mixed by
two xor-shift-multiply rounds and a final xor-shift, and the mixed value is the
output.  Returns `(output, new accumulator)`. -/
def splitmix64 (s : Nat) : Nat × Nat :=
  let z0 := (s + 0x9E3779B97F4A7C15) % 2 ^ 64
  let z1 := ((z0 ^^^ (z0 >>> 30)) * 0xBF58476D1CE4E5B9) % 2 ^ 64
  let z2 := ((z1 ^^^ (z1 >>> 27)) * 0x94D049BB133111EB) % 2 ^ 64
  (z2 ^^^ (z2 >>> 31), z0)

/-- The 4-word state of `xoshiro256starstar` (`std::array<uint64_t, 4> m_state`). -/
structure XoState where
  s0 : Nat
  s1 : Nat
  s2 : Nat
  s3 : Nat
deriving DecidableEq

/-- Embedding of one call of `xoshiro256starstar::operator()()`: output is
`rotl(s1 * 5, 7) * 9` (wrapping), then the state is updated by the xor-shift
sequence and the rotation of `s3`.  Returns `(output, new state)`. -/
def xoshiro256starstar (st : XoState) : Nat × XoState :=
  let result := (rotl64 ((st.s1 * 5) % 2 ^ 64) 7 * 9) % 2 ^ 64
  let t := (st.s1 <<< 17) % 2 ^ 64
  let s2a := st.s2 ^^^ st.s0
  let s3a := st.s3 ^^^ st.s1
  let s1b := st.s1 ^^^ s2a
  let s0b := st.s0 ^^^ s3a
  let s2b := s2a ^^^ t
  let s3b := rotl64 s3a 45
  (result, ⟨s0b, s1b, s2b, s3b⟩)

/-- Embedding of `xoshiro256starstar::xoshiro256starstar(uint64_t seed)`:
`std::generate` fills the four state words with four successive outputs of a
`splitmix64` generator constructed from `seed`. -/
def xoshiroInit (seed : Nat) : XoState :=
  let r0 := splitmix64 seed
  let r1 := splitmix64 r0.2
  let r2 := splitmix64 r1.2
  let r3 := splitmix64 r2.2
  ⟨r0.1, r1.1, r2.1, r3.1⟩

/-- State of a generator after `n` calls, for a generic step function (the CRTP
`Engine::operator()()` the `Extras` mixin calls through `next()`). -/
def runState {σ : Type} (step : σ → Nat × σ) (st : σ) : Nat → σ
  | 0 => st
  | n + 1 => (step (runState step st n)).2

/-- Output of the `(n+1)`-st call of a generator started at `st`. -/
def runOut {σ : Type} (step : σ → Nat × σ) (st : σ) (n : Nat) : Nat :=
  (step (runState step st n)).1

/-- A pair of streams `(states, outs)` is an execution trace of the generator
`step` started from `init`: the states start at `init` and every call at state
`states n` yields output `outs n` and moves to `states (n+1)`. -/
def IsRun {σ : Type} (step : σ → Nat × σ) (init : σ) (states : Nat → σ)
    (outs : Nat → Nat) : Prop :=
  states 0 = init ∧ ∀ n, step (states n) = (outs n, states (n + 1))

/-- Embedding of `Extras::min()`: `std::numeric_limits<uint64_t>::min()`. -/
def extrasMin : Nat := 0

/-- Embedding of `Extras::max()`: `std::numeric_limits<uint64_t>::max()`. -/
def extrasMax : Nat := 2 ^ 64 - 1

/-- The 64-bit pattern `(0x3ff << 52) | (w >> 12)` built by `Extras::real01` from
a raw draw `w`. -/
def real01Bits (w : Nat) : Nat :=
  (0x3FF <<< 52) ||| (w >>> 12)

/-- Value of an IEEE-754 binary64 bit pattern whose exponent field encodes a
normal number, as an exact rational:
`(-1)^sign * (1 + mantissa / 2^52) * 2^(exponentField - 1023)`.  The patterns
built by `real01` always carry exponent field 0x3FF, which is normal. -/
def decodeNormal (b : Nat) : ℚ :=
  (if b >>> 63 = 0 then 1 else -1) * (1 + ((b % 2 ^ 52 : Nat) : ℚ) / 2 ^ 52)
    * (2 : ℚ) ^ (((b >>> 52) % 2 ^ 11 : Nat) - 1023 : ℤ)

/-- Embedding of `Extras::real01()`: one raw draw, reinterpret
`(0x3ff << 52) | (draw >> 12)` as a double and subtract 1.0.  The subtraction is
exact in IEEE-754 (the minuend lies in [1,2), the difference is a dyadic rational
with a 52-bit numerator), so the rational model is the double semantics. -/
def real01 {σ : Type} (step : σ → Nat × σ) (st : σ) : ℚ × σ :=
  let r := step st
  (decodeNormal (real01Bits r.1) - 1, r.2)

/-- Embedding of `Extras::real_between(min_val, max_val)`:
`(max_val - min_val) * real01()`.  The value is the exact rational result of the
expression the source computes; the source's double subtraction and
multiplication round and can overflow, so only the shape of this expression (and
not any exact-arithmetic range bound on it) transfers to the program. -/
def real_between {σ : Type} (step : σ → Nat × σ) (minVal maxVal : ℚ) (st : σ) :
    ℚ × σ :=
  let r := real01 step st
  ((maxVal - minVal) * r.1, r.2)

/-- Embedding of `Extras::bounded(boundExcluded)` on the `__SIZEOF_INT128__`
path: the 128-bit product of the bound and one raw draw, shifted right 64. -/
def bounded {σ : Type} (step : σ → Nat × σ) (boundExcluded : Nat) (st : σ) :
    Nat × σ :=
  let r := step st
  ((boundExcluded * r.1) >>> 64, r.2)

/-- Modelled from the spec: the inner rejection loop of the fallback branch of
`Extras::bounded` (taken when no 128-bit integer type is available).  The source
text of that branch names `bound` where the parameter is `boundExcluded`, so the
branch as written is ill-formed C++ and the loop is modelled from the spec's
words: repeatedly draw raw words and accept the first one `>= threshold`,
returning it `mod bound`.  `fuel` bounds the number of draws; `none` means no
draw was accepted within `fuel` attempts. -/
def boundedFallbackLoop {σ : Type} (step : σ → Nat × σ) (bound threshold : Nat) :
    Nat → σ → Option (Nat × σ)
  | 0, _ => none
  | fuel + 1, st =>
    let r := step st
    if threshold ≤ r.1 then some (r.1 % bound, r.2)
    else boundedFallbackLoop step bound threshold fuel r.2

/-- Modelled from the spec: the fallback branch of `Extras::bounded`, with the
threshold `(0 - bound) % bound` computed in 64-bit arithmetic
(`0 - bound` on `uint64_t` is `(2^64 - bound) % 2^64`). -/
def boundedFallback {σ : Type} (step : σ → Nat × σ) (bound fuel : Nat) (st : σ) :
    Option (Nat × σ) :=
  boundedFallbackLoop step bound (((2 ^ 64 - bound) % 2 ^ 64) % bound) fuel st

/-- Two execution traces of the same generator from the same initial state agree
everywhere: states and outputs coincide at every index. -/
theorem isRun_unique {σ : Type} (step : σ → Nat × σ) (init : σ)
    (a b : Nat → σ) (o p : Nat → Nat)
    (ha : IsRun step init a o) (hb : IsRun step init b p) :
    ∀ n, a n = b n ∧ o n = p n := by
  have hstate : ∀ n, a n = b n := by
    intro n
    induction n with
    | zero => rw [ha.1, hb.1]
    | succ n ih =>
      have h1 := ha.2 n
      have h2 := hb.2 n
      rw [ih] at h1
      rw [h1] at h2
      exact congrArg Prod.snd h2
  intro n
  refine ⟨hstate n, ?_⟩
  have h1 := ha.2 n
  have h2 := hb.2 n
  rw [hstate n] at h1
  rw [h1] at h2
  exact congrArg Prod.fst h2

/-- The canonical streams `runState`/`runOut` form an execution trace. -/
theorem isRun_canonical {σ : Type} (step : σ → Nat × σ) (st : σ) :
    IsRun step st (runState step st) (runOut step st) :=
  ⟨rfl, fun _ => rfl⟩

/-- C1: for every 4-word state (s0,s1,s2,s3), one call of the Long-Period
Generator's `next()` returns `rotate_left(s1 * 5, 7) * 9` modulo 2^64, with
`rotate_left(x,k) = (x << k) | (x >> (64-k))`, and updates the state by
`t = s1 << 17; s2 ^= s0; s3 ^= s1; s1 ^= s2; s0 ^= s3; s2 ^= t;
s3 = rotate_left(s3, 45)`, in exactly that order. -/
theorem xoshiro_step_c1 (s0 s1 s2 s3 : Nat) :
    xoshiro256starstar ⟨s0, s1, s2, s3⟩ =
      ((((((s1 * 5) % 2 ^ 64) <<< 7) % 2 ^ 64 ||| (((s1 * 5) % 2 ^ 64) >>> 57)) * 9)
          % 2 ^ 64,
        let t := (s1 <<< 17) % 2 ^ 64
        let s2a := s2 ^^^ s0
        let s3a := s3 ^^^ s1
        let s1b := s1 ^^^ s2a
        let s0b := s0 ^^^ s3a
        let s2b := s2a ^^^ t
        let s3b := ((s3a <<< 45) % 2 ^ 64) ||| (s3a >>> 19)
        ⟨s0b, s1b, s2b, s3b⟩) := rfl

/-- C2: each call of the Scrambler Generator's `next()` sets the accumulator to
`z0 = s + 0x9E3779B97F4A7C15 mod 2^64` and returns the mix of `z0` by two
xor-shift-multiply rounds (30/0xBF58476D1CE4E5B9 then 27/0x94D049BB133111EB)
and a final xor-shift-right-31, all modulo 2^64; with seed 0 the first output
is the mix of 0x9E3779B97F4A7C15 itself. -/
theorem splitmix_step_c2 (s : Nat) :
    splitmix64 s =
      (let z0 := (s + 0x9E3779B97F4A7C15) % 2 ^ 64
       let z1 := ((z0 ^^^ (z0 >>> 30)) * 0xBF58476D1CE4E5B9) % 2 ^ 64
       let z2 := ((z1 ^^^ (z1 >>> 27)) * 0x94D049BB133111EB) % 2 ^ 64
       (z2 ^^^ (z2 >>> 31), z0)) ∧
    (splitmix64 0).1 =
      (let z0 := (0x9E3779B97F4A7C15 : Nat)
       let z1 := ((z0 ^^^ (z0 >>> 30)) * 0xBF58476D1CE4E5B9) % 2 ^ 64
       let z2 := ((z1 ^^^ (z1 >>> 27)) * 0x94D049BB133111EB) % 2 ^ 64
       z2 ^^^ (z2 >>> 31)) :=
  ⟨rfl, by decide⟩

/-- C3: constructing the Long-Period Generator from a seed S fills the state
words s0..s3 with the first four outputs, in order, of a Scrambler Generator
constructed from the same seed S. -/
theorem xoshiro_seed_c3 (S : Nat) :
    xoshiroInit S =
      ⟨(splitmix64 S).1,
       (splitmix64 (splitmix64 S).2).1,
       (splitmix64 (splitmix64 (splitmix64 S).2).2).1,
       (splitmix64 (splitmix64 (splitmix64 (splitmix64 S).2).2).2).1⟩ := rfl

/-- C4: on the double-width-multiply path, `bounded(bound)` for `bound > 0`
returns exactly `(bound * raw) / 2^64` where `raw` is the single `next()` output
it consumes (the state advances one step), and the result is always in
`[0, bound)`. -/
theorem bounded_lemire_c4 {σ : Type} (step : σ → Nat × σ) (st : σ) (bound : Nat)
    (hb : 0 < bound) (hw : (step st).1 < 2 ^ 64) :
    bounded step bound st = ((bound * (step st).1) / 2 ^ 64, (step st).2) ∧
    (bounded step bound st).1 < bound := by
  constructor
  · simp [bounded, Nat.shiftRight_eq_div_pow]
  · show (bound * (step st).1) >>> 64 < bound
    rw [Nat.shiftRight_eq_div_pow]
    rw [Nat.div_lt_iff_lt_mul (Nat.pos_pow_of_pos 64 (by norm_num))]
    exact mul_lt_mul_of_pos_left hw hb

/-- Witness for C4 at the Scrambler Generator started at accumulator 0 with
bound 5. -/
theorem bounded_lemire_c4_witness :
    bounded splitmix64 5 0 = ((5 * (splitmix64 0).1) / 2 ^ 64, (splitmix64 0).2) ∧
    (bounded splitmix64 5 0).1 < 5 :=
  bounded_lemire_c4 splitmix64 0 5 (by decide) (by decide)

/-- C8: both generator kinds are deterministic in the explicit seed: any two
execution traces of the Scrambler Generator started from the same seed S, and
any two execution traces of the Long-Period Generator started from the state
seeded from S, produce identical outputs at every index below any N. -/
theorem seed_determinism_c8 (S N : Nat)
    (st1 st2 : Nat → Nat) (o1 o2 : Nat → Nat)
    (x1 x2 : Nat → XoState) (p1 p2 : Nat → Nat)
    (h1 : IsRun splitmix64 S st1 o1) (h2 : IsRun splitmix64 S st2 o2)
    (h3 : IsRun xoshiro256starstar (xoshiroInit S) x1 p1)
    (h4 : IsRun xoshiro256starstar (xoshiroInit S) x2 p2) :
    (∀ i, i < N → o1 i = o2 i) ∧ (∀ i, i < N → p1 i = p2 i) :=
  ⟨fun i _ => (isRun_unique splitmix64 S st1 st2 o1 o2 h1 h2 i).2,
   fun i _ => (isRun_unique xoshiro256starstar (xoshiroInit S) x1 x2 p1 p2 h3 h4 i).2⟩

/-- Witness for C8 at seed 0, N = 2, with the canonical traces of both
generators. -/
theorem seed_determinism_c8_witness :
    (∀ i, i < 2 → runOut splitmix64 0 i = runOut splitmix64 0 i) ∧
    (∀ i, i < 2 →
      runOut xoshiro256starstar (xoshiroInit 0) i =
        runOut xoshiro256starstar (xoshiroInit 0) i) :=
  seed_determinism_c8 0 2
    (runState splitmix64 0) (runState splitmix64 0)
    (runOut splitmix64 0) (runOut splitmix64 0)
    (runState xoshiro256starstar (xoshiroInit 0))
    (runState xoshiro256starstar (xoshiroInit 0))
    (runOut xoshiro256starstar (xoshiroInit 0))
    (runOut xoshiro256starstar (xoshiroInit 0))
    (isRun_canonical splitmix64 0) (isRun_canonical splitmix64 0)
    (isRun_canonical xoshiro256starstar (xoshiroInit 0))
    (isRun_canonical xoshiro256starstar (xoshiroInit 0))

/-- C9: on the double-width-multiply path, `bounded(0)` returns 0 and still
consumes exactly one raw draw, leaving the generator in the state one `next()`
step ahead. -/
theorem bounded_zero_c9 {σ : Type} (step : σ → Nat × σ) (st : σ) :
    bounded step 0 st = (0, (step st).2) := by
  simp [bounded]

/-- C10: `real01` and `bounded` advance the generator by exactly one `next()`
step (their state component is the state after one raw draw and nothing else),
and `min()` and `max()` are the constants 0 and 2^64 - 1, computed without
touching any generator state. -/
theorem extras_frame_c10 {σ : Type} (step : σ → Nat × σ) (st : σ) (n : Nat) :
    (real01 step st).2 = (step st).2 ∧
    (bounded step n st).2 = (step st).2 ∧
    extrasMin = 0 ∧ extrasMax = 2 ^ 64 - 1 :=
  ⟨rfl, rfl, rfl, rfl⟩

/-- The mantissa field of the pattern `(0x3FF <<< 52) ||| m` is `m` itself when
`m` fits in 52 bits. -/
theorem lor_exp_mod (m : Nat) (h : m < 2 ^ 52) :
    ((0x3FF <<< 52) ||| m) % 2 ^ 52 = m := by
  apply Nat.eq_of_testBit_eq
  intro i
  simp only [Nat.testBit_mod_two_pow, Nat.testBit_lor, Nat.testBit_shiftLeft]
  by_cases hi : i < 52
  · simp [hi, Nat.not_le.mpr hi]
  · simp [hi, Nat.testBit_lt_two_pow
      (lt_of_lt_of_le h (Nat.pow_le_pow_right (by norm_num) (Nat.le_of_not_lt hi)))]

/-- The bits of the pattern `(0x3FF <<< 52) ||| m` above the mantissa are
exactly 0x3FF when `m` fits in 52 bits. -/
theorem lor_exp_shift (m : Nat) (h : m < 2 ^ 52) :
    ((0x3FF <<< 52) ||| m) >>> 52 = 0x3FF := by
  apply Nat.eq_of_testBit_eq
  intro i
  simp only [Nat.testBit_shiftRight, Nat.testBit_lor, Nat.testBit_shiftLeft]
  have hm : Nat.testBit m (52 + i) = false :=
    Nat.testBit_lt_two_pow
      (lt_of_lt_of_le h (Nat.pow_le_pow_right (by norm_num) (Nat.le_add_right 52 i)))
  simp [hm, Nat.add_sub_cancel_left]

/-- The sign bit of the pattern `(0x3FF <<< 52) ||| m` is clear when `m` fits
in 52 bits. -/
theorem lor_exp_sign (m : Nat) (h : m < 2 ^ 52) :
    ((0x3FF <<< 52) ||| m) >>> 63 = 0 := by
  have h63 : (63 : Nat) = 52 + 11 := rfl
  rw [h63, Nat.shiftRight_add, lor_exp_shift m h]
  decide

/-- Decoding the pattern `(0x3FF <<< 52) ||| m` as an IEEE-754 binary64 yields
`1 + m / 2^52` exactly, for `m` in the mantissa range. -/
theorem decodeNormal_exp3FF (m : Nat) (h : m < 2 ^ 52) :
    decodeNormal ((0x3FF <<< 52) ||| m) = 1 + (m : ℚ) / 2 ^ 52 := by
  unfold decodeNormal
  rw [lor_exp_sign m h, lor_exp_shift m h, lor_exp_mod m h]
  norm_num

/-- A 64-bit word shifted right by 12 fits in 52 bits. -/
theorem shiftRight12_lt (w : Nat) (h : w < 2 ^ 64) : w >>> 12 < 2 ^ 52 := by
  rw [Nat.shiftRight_eq_div_pow]
  rw [Nat.div_lt_iff_lt_mul (Nat.pos_pow_of_pos 12 (by norm_num))]
  calc w < 2 ^ 64 := h
    _ = 2 ^ 52 * 2 ^ 12 := by norm_num

/-- The value `real01` produces from one raw draw `w < 2^64` is exactly
`(w >>> 12) / 2^52`. -/
theorem real01_fst {σ : Type} (step : σ → Nat × σ) (st : σ)
    (hw : (step st).1 < 2 ^ 64) :
    (real01 step st).1 = (((step st).1 >>> 12 : Nat) : ℚ) / 2 ^ 52 := by
  show decodeNormal (real01Bits (step st).1) - 1 = _
  unfold real01Bits
  rw [decodeNormal_exp3FF _ (shiftRight12_lt _ hw)]
  ring

/-- The value `real01` produces is nonnegative. -/
theorem real01_nonneg {σ : Type} (step : σ → Nat × σ) (st : σ)
    (hw : (step st).1 < 2 ^ 64) : 0 ≤ (real01 step st).1 := by
  rw [real01_fst step st hw]
  positivity

/-- The value `real01` produces is strictly below 1. -/
theorem real01_lt_one {σ : Type} (step : σ → Nat × σ) (st : σ)
    (hw : (step st).1 < 2 ^ 64) : (real01 step st).1 < 1 := by
  rw [real01_fst step st hw]
  rw [div_lt_one (by positivity)]
  have h52 := shiftRight12_lt _ hw
  calc (((step st).1 >>> 12 : Nat) : ℚ) < ((2 ^ 52 : Nat) : ℚ) := by
        exact_mod_cast h52
    _ = 2 ^ 52 := by norm_num

/-- C6: `real01` consumes one raw draw `w`, builds `(0x3FF << 52) | (w >> 12)`,
whose decode as an IEEE-754 double lies in [1,2) and has the top 52 bits of `w`
as mantissa, subtracts 1, and the result equals `(w >> 12) * 2^-52` — one of
2^52 equally spaced points — and lies in [0,1), never reaching 1. -/
theorem real01_c6 {σ : Type} (step : σ → Nat × σ) (st : σ)
    (hw : (step st).1 < 2 ^ 64) :
    real01 step st =
      (decodeNormal ((0x3FF <<< 52) ||| ((step st).1 >>> 12)) - 1, (step st).2) ∧
    (1 ≤ decodeNormal (real01Bits (step st).1) ∧
      decodeNormal (real01Bits (step st).1) < 2) ∧
    real01Bits (step st).1 % 2 ^ 52 = (step st).1 >>> 12 ∧
    (step st).1 >>> 12 < 2 ^ 52 ∧
    (real01 step st).1 = (((step st).1 >>> 12 : Nat) : ℚ) / 2 ^ 52 ∧
    0 ≤ (real01 step st).1 ∧ (real01 step st).1 < 1 := by
  have h52 := shiftRight12_lt _ hw
  refine ⟨rfl, ?_, lor_exp_mod _ h52, h52, real01_fst step st hw,
    real01_nonneg step st hw, real01_lt_one step st hw⟩
  unfold real01Bits
  rw [decodeNormal_exp3FF _ h52]
  constructor
  · have : (0 : ℚ) ≤ (((step st).1 >>> 12 : Nat) : ℚ) / 2 ^ 52 := by positivity
    linarith
  · have : (((step st).1 >>> 12 : Nat) : ℚ) / 2 ^ 52 < 1 := by
      rw [div_lt_one (by positivity)]
      exact_mod_cast h52
    linarith

/-- Witness for C6 at the Scrambler Generator started at accumulator 0. -/
theorem real01_c6_witness :
    real01 splitmix64 0 =
      (decodeNormal ((0x3FF <<< 52) ||| ((splitmix64 0).1 >>> 12)) - 1,
        (splitmix64 0).2) ∧
    (1 ≤ decodeNormal (real01Bits (splitmix64 0).1) ∧
      decodeNormal (real01Bits (splitmix64 0).1) < 2) ∧
    real01Bits (splitmix64 0).1 % 2 ^ 52 = (splitmix64 0).1 >>> 12 ∧
    (splitmix64 0).1 >>> 12 < 2 ^ 52 ∧
    (real01 splitmix64 0).1 = (((splitmix64 0).1 >>> 12 : Nat) : ℚ) / 2 ^ 52 ∧
    0 ≤ (real01 splitmix64 0).1 ∧ (real01 splitmix64 0).1 < 1 :=
  real01_c6 splitmix64 0 (by decide)

/-- C5 counterexample: at min = max = 0 (so min ≤ max) and the Scrambler
Generator at accumulator 0, the result of `real_between` is 0, which does not
lie in the empty interval [0, max - min) = [0, 0). -/
theorem real_between_c5_counterexample :
    (0 : ℚ) ≤ 0 ∧
    ¬ (0 ≤ (real_between splitmix64 0 0 0).1 ∧
        (real_between splitmix64 0 0 0).1 < 0 - 0) := by
  refine ⟨le_refl 0, fun h => ?_⟩
  have h1 : (real_between splitmix64 0 0 0).1 = 0 := by
    show ((0 : ℚ) - 0) * (real01 splitmix64 0).1 = 0
    ring
  rw [h1] at h
  exact absurd h.2 (by norm_num)

/-- C5 (amended): `real_between(min, max)` returns exactly the product of
`(max - min)` with the value of `real01()` computed from one draw, with no
offset by `min` added to the result, and the `real01` factor lies in [0, 1).
No containment of the product in [0, max - min) is asserted: it fails at
min = max (empty interval), and for the program's doubles the subtraction and
multiplication round and can overflow (at (-DBL_MAX, DBL_MAX) the program
returns +inf), so the exact-arithmetic bound does not transfer. -/
theorem real_between_c5_amended {σ : Type} (step : σ → Nat × σ) (st : σ)
    (mn mx : ℚ) (hw : (step st).1 < 2 ^ 64) :
    real_between step mn mx st =
      ((mx - mn) * (real01 step st).1, (real01 step st).2) ∧
    0 ≤ (real01 step st).1 ∧ (real01 step st).1 < 1 :=
  ⟨rfl, real01_nonneg step st hw, real01_lt_one step st hw⟩

/-- Witness for the amended C5 at the Scrambler Generator with min 0, max 3. -/
theorem real_between_c5_amended_witness :
    real_between splitmix64 0 3 0 =
      ((3 - 0) * (real01 splitmix64 0).1, (real01 splitmix64 0).2) ∧
    0 ≤ (real01 splitmix64 0).1 ∧ (real01 splitmix64 0).1 < 1 :=
  real_between_c5_amended splitmix64 0 0 3 (by decide)

/-- Advancing a trace by one step from the start is the trace of the advanced
state. -/
theorem runState_shift {σ : Type} (step : σ → Nat × σ) (st : σ) (n : Nat) :
    runState step st (n + 1) = runState step (step st).2 n := by
  induction n with
  | zero => rfl
  | succ n ih =>
    show (step (runState step st (n + 1))).2 = (step (runState step (step st).2 n)).2
    rw [ih]

/-- Outputs of a trace, shifted by one draw. -/
theorem runOut_shift {σ : Type} (step : σ → Nat × σ) (st : σ) (n : Nat) :
    runOut step st (n + 1) = runOut step (step st).2 n := by
  unfold runOut
  rw [runState_shift]

/-- C7: on the fallback path, `bounded(bound)` computes the threshold
`(0 - bound) mod bound` in 64-bit arithmetic, repeatedly draws raw words, and
accepts the first draw `r >= threshold`, returning `r mod bound` with the
generator advanced past the accepted draw.  (Stated against the spec-modelled
`boundedFallback`; the source branch itself is ill-formed C++.) -/
theorem bounded_fallback_c7 {σ : Type} (step : σ → Nat × σ) (st : σ)
    (bound i fuel : Nat)
    (hi : i < fuel)
    (hacc : ((2 ^ 64 - bound) % 2 ^ 64) % bound ≤ runOut step st i)
    (hrej : ∀ j, j < i → runOut step st j < ((2 ^ 64 - bound) % 2 ^ 64) % bound) :
    boundedFallback step bound fuel st =
      some (runOut step st i % bound, runState step st (i + 1)) := by
  induction i generalizing st fuel with
  | zero =>
    obtain ⟨f, rfl⟩ : ∃ f, fuel = f + 1 :=
      ⟨fuel - 1, (Nat.succ_pred_eq_of_pos hi).symm⟩
    show boundedFallbackLoop step bound _ (f + 1) st = _
    unfold boundedFallbackLoop
    have hc : ((2 ^ 64 - bound) % 2 ^ 64) % bound ≤ (step st).1 := hacc
    simp only [hc, if_pos]
    rfl
  | succ i ih =>
    obtain ⟨f, rfl⟩ : ∃ f, fuel = f + 1 :=
      ⟨fuel - 1, (Nat.succ_pred_eq_of_pos (Nat.lt_of_le_of_lt (Nat.zero_le _) hi)).symm⟩
    have hfirst : (step st).1 < ((2 ^ 64 - bound) % 2 ^ 64) % bound :=
      hrej 0 (Nat.succ_pos i)
    have hstep : boundedFallback step bound (f + 1) st =
        boundedFallback step bound f (step st).2 := by
      show boundedFallbackLoop step bound _ (f + 1) st = _
      unfold boundedFallbackLoop
      simp only [Nat.not_le.mpr hfirst, if_neg, not_false_iff]
      rfl
    rw [hstep]
    rw [runOut_shift, runState_shift]
    exact ih (step st).2 f (Nat.lt_of_succ_lt_succ hi)
      (by rw [← runOut_shift]; exact hacc)
      (fun j hj => by
        rw [← runOut_shift]
        exact hrej (j + 1) (Nat.succ_lt_succ hj))

/-- Witness for C7: the Scrambler Generator from accumulator 0 with bound 5,
whose first draw already clears the threshold. -/
theorem bounded_fallback_c7_witness :
    boundedFallback splitmix64 5 1 0 =
      some (runOut splitmix64 0 0 % 5, runState splitmix64 0 (0 + 1)) :=
  bounded_fallback_c7 splitmix64 0 5 0 1 (by decide) (by decide)
    (fun j hj => absurd hj (Nat.not_lt_zero j))

end CppRng
